import Mathlib

/-!
Shallow embedding of `pepperoni.py`: a CLI tool that fetches a URL and
extracts a fragment of the response body with a small CSS-like selector
(`tag`, `.class`, `#id`, space-descendant) or a regular expression, and can
poll on an interval, alerting when the extracted value changes.

The embedding follows the source file closely:
- `get_selector` compiles one selector token to a predicate (`Step.matches`
  carries the three lambda bodies that the Python `get_selector` returns).
- `MatcherState` is the mutable state of the `HTMLParser` subclass
  (`_all_selectors`, `_selector_cursor`, `_stack`, `_regex`, `match`);
  the tokenizer callbacks `handle_starttag`, `handle_endtag`, `handle_data`
  are state transformers.  `Option` results model uncaught Python
  exceptions (`list.pop()` on an empty list raises `IndexError`).
- The HTML tokenizer itself is Python's `html.parser` base class, which is
  outside the repository; `tokenize` below models it from the spec.
- `query_html`, `request_and_query`, `poll_loop` / `pepperoni` model the
  extraction entry point, the fetch wrapper and the polling loop; network
  fetch outcomes are an explicit `FetchResult` input.

Python integers are `Int` (the cursor is decremented and could in principle
go negative); Python list indexing, `str.split(" ")`, `str.startswith` and
truthiness are modelled explicitly below.
-/

/-- Attribute list as delivered by the HTML tokenizer to `handle_starttag`:
`(name, value)` pairs. -/
abbrev Attrs := List (String × String)

/-- Abstract model of a compiled regular expression: `re.search(r, s)`
returning `group(0)` of the first (leftmost) match, or `None`. -/
abbrev RegexFn := String → Option String

/-- Python `s.split(sep)` for a one-character separator, on character
lists: does not collapse consecutive separators, and splitting the empty
list yields one empty group. -/
def splitChar (sep : Char) : List Char → List (List Char)
  | [] => [[]]
  | c :: cs =>
    let r := splitChar sep cs
    if c = sep then
      [] :: r
    else
      match r with
      | [] => [[c]]
      | g :: gs => (c :: g) :: gs

/-- Python `s.split(sep)` for a one-character separator string. -/
def pySplit (s : String) (sep : Char) : List String :=
  (splitChar sep s.data).map String.mk

/-- Python `s.startswith(pre)`. -/
def pyStartsWith (s pre : String) : Bool :=
  pre.data.isPrefixOf s.data

/-- Python `s[1:]`. -/
def pyDrop1 (s : String) : String :=
  String.mk (s.data.drop 1)

/-- Python list indexing `l[i]`, including negative-index support;
`none` models `IndexError`. -/
def pyIndex {α : Type} (l : List α) (i : Int) : Option α :=
  if 0 ≤ i then l[i.toNat]?
  else if 0 ≤ (l.length : Int) + i then l[((l.length : Int) + i).toNat]? else none

/-- A compiled selector step: the predicate returned by `get_selector`,
represented by its syntax (the three lambda shapes in the source). -/
inductive Step where
  | idAttr (v : String)
  | classAttr (v : String)
  | tagName (t : String)
deriving DecidableEq

/-- The predicate bodies of the three lambdas returned by `get_selector`:
`any(name == "id" and s[1:] == value for (name, value) in attrs)`,
`any(name == "class" and s[1:] in value.split(" ") for (name, value) in attrs)`,
and `s == tag`. -/
def Step.matches : Step → String → Attrs → Bool
  | .idAttr v, _, attrs => attrs.any fun p => decide (p.1 = "id") && decide (v = p.2)
  | .classAttr v, _, attrs =>
      attrs.any fun p => decide (p.1 = "class") && decide (v ∈ pySplit p.2 ' ')
  | .tagName s, tag, _ => decide (s = tag)

/-- `get_selector(s)`: `#`-tokens compile to an id predicate, `.`-tokens to
a class predicate, anything else to a tag-name predicate. -/
def get_selector (s : String) : Step :=
  if pyStartsWith s "#" then Step.idAttr (pyDrop1 s)
  else if pyStartsWith s "." then Step.classAttr (pyDrop1 s)
  else Step.tagName s

/-- One event of the HTML tokenizer: the three `HTMLParser` callbacks the
source overrides. -/
inductive HtmlEvent where
  | starttag (tag : String) (attrs : Attrs)
  | endtag (tag : String)
  | text (s : String)
deriving DecidableEq

/-- The state of the `HTMLParser` subclass in pepperoni.py:
`_all_selectors`, `_selector_cursor`, `_stack`, `_regex`, `self.match`. -/
structure MatcherState where
  all_selectors : List Step
  selector_cursor : Int
  stack : List (Option Int)
  regex : Option RegexFn
  match_ : Option String

/-- `HTMLParser.__init__(query, regex)`:
`[get_selector(s) for s in query.split(" ") if s]`, cursor 0, empty stack,
no recorded match. -/
def mkMatcher (query : String) (regex : Option RegexFn) : MatcherState :=
  { all_selectors := ((pySplit query ' ').filter fun s => decide (s ≠ "")).map get_selector
    selector_cursor := 0
    stack := []
    regex := regex
    match_ := none }

/-- `HTMLParser.reset`: clears the stack and the cursor (and the base
tokenizer state); `self.match` is not touched. -/
def MatcherState.reset (st : MatcherState) : MatcherState :=
  { st with stack := [], selector_cursor := 0 }

/-- `HTMLParser.handle_starttag`: if `len(self._all_selectors) >
self._selector_cursor` and the step at the cursor accepts the tag, push the
cursor value and increment it; otherwise push `None`.  The `none` result
models an uncaught `IndexError` from the list access (unreachable from the
initial state). -/
def MatcherState.handle_starttag (st : MatcherState) (tag : String) (attrs : Attrs) :
    Option MatcherState :=
  if st.selector_cursor < (st.all_selectors.length : Int) then
    match pyIndex st.all_selectors st.selector_cursor with
    | none => none
    | some fn =>
      if fn.matches tag attrs then
        some { st with stack := some st.selector_cursor :: st.stack
                       selector_cursor := st.selector_cursor + 1 }
      else
        some { st with stack := none :: st.stack }
  else
    some { st with stack := none :: st.stack }

/-- `HTMLParser.handle_endtag`: `if self._stack.pop() is not None:
self._selector_cursor -= 1`.  Python's `list.pop()` raises `IndexError` on
an empty list, modelled by the `none` result. -/
def MatcherState.handle_endtag (st : MatcherState) (_tag : String) :
    Option MatcherState :=
  match st.stack with
  | [] => none
  | popped :: rest =>
    match popped with
    | some _ => some { st with stack := rest, selector_cursor := st.selector_cursor - 1 }
    | none => some { st with stack := rest }

/-- `HTMLParser.handle_data`: record the text only while `self.match is
None` and `len(self._all_selectors) == self._selector_cursor`; with a regex
present, record `re.search(...).group(0)` if the search succeeds, otherwise
record the raw text. -/
def MatcherState.handle_data (st : MatcherState) (dat : String) : MatcherState :=
  if st.match_.isNone && decide ((st.all_selectors.length : Int) = st.selector_cursor) then
    match st.regex with
    | some r =>
      match r dat with
      | some m => { st with match_ := some m }
      | none => st
    | none => { st with match_ := some dat }
  else st

/-- Dispatch of one tokenizer event to the matching callback. -/
def MatcherState.handle_event (st : MatcherState) : HtmlEvent → Option MatcherState
  | .starttag tag attrs => st.handle_starttag tag attrs
  | .endtag tag => st.handle_endtag tag
  | .text s => some (st.handle_data s)

/-- Processing a whole event stream (`HTMLParser.feed` driving the
callbacks in order); an exception aborts the parse. -/
def feed : MatcherState → List HtmlEvent → Option MatcherState
  | st, [] => some st
  | st, e :: evs =>
    match st.handle_event e with
    | none => none
    | some st2 => feed st2 evs

/-! ### The HTML tokenizer

Modelled from the spec: the spec names "an HTML tokenizer producing
start-tag/end-tag/text events with attribute lists" as an external
collaborator (Python's `html.parser` base class, outside this repository).
The character machine below produces those events for plain tags with
optional quoted attributes, lowercasing tag and attribute names as
`html.parser` does. -/

/-- States of the tokenizer character machine. -/
inductive TokMode where
  | text (acc : List Char)
  | tagOpen
  | endName (nm : List Char)
  | startName (nm : List Char)
  | beforeAttr (nm : List Char) (attrs : Attrs)
  | attrName (nm : List Char) (attrs : Attrs) (an : List Char)
  | attrEq (nm : List Char) (attrs : Attrs) (an : List Char)
  | attrVal (nm : List Char) (attrs : Attrs) (an : List Char) (q : Char) (av : List Char)

/-- Finish a (reversed) accumulated tag or attribute name, lowercased as in
`html.parser`. -/
def finishName (nm : List Char) : String :=
  String.mk (nm.reverse.map Char.toLower)

/-- The single-quote character. -/
def quoteChar : Char := Char.ofNat 39

/-- The double-quote character. -/
def dquoteChar : Char := Char.ofNat 34

/-- One character step of the tokenizer machine; produced events are
accumulated in reverse. -/
def tokStep : List HtmlEvent × TokMode → Char → List HtmlEvent × TokMode
  | (evs, .text acc), c =>
    if c = '<' then
      (if acc.isEmpty then evs else HtmlEvent.text (String.mk acc.reverse) :: evs, .tagOpen)
    else (evs, .text (c :: acc))
  | (evs, .tagOpen), c =>
    if c = '/' then (evs, .endName [])
    else (evs, .startName [c])
  | (evs, .endName nm), c =>
    if c = '>' then (HtmlEvent.endtag (finishName nm) :: evs, .text [])
    else (evs, .endName (c :: nm))
  | (evs, .startName nm), c =>
    if c = '>' then (HtmlEvent.starttag (finishName nm) [] :: evs, .text [])
    else if c = ' ' then (evs, .beforeAttr nm [])
    else (evs, .startName (c :: nm))
  | (evs, .beforeAttr nm attrs), c =>
    if c = '>' then (HtmlEvent.starttag (finishName nm) attrs :: evs, .text [])
    else if c = ' ' then (evs, .beforeAttr nm attrs)
    else (evs, .attrName nm attrs [c])
  | (evs, .attrName nm attrs an), c =>
    if c = '=' then (evs, .attrEq nm attrs an)
    else if c = '>' then
      (HtmlEvent.starttag (finishName nm) (attrs ++ [(finishName an, "")]) :: evs, .text [])
    else if c = ' ' then (evs, .beforeAttr nm (attrs ++ [(finishName an, "")]))
    else (evs, .attrName nm attrs (c :: an))
  | (evs, .attrEq nm attrs an), c =>
    if c = quoteChar ∨ c = dquoteChar then (evs, .attrVal nm attrs an c [])
    else (evs, .attrVal nm attrs an ' ' [c])
  | (evs, .attrVal nm attrs an q av), c =>
    if c = q then
      (evs, .beforeAttr nm (attrs ++ [(finishName an, String.mk av.reverse)]))
    else if q = ' ' ∧ c = '>' then
      (HtmlEvent.starttag (finishName nm) (attrs ++ [(finishName an, String.mk av.reverse)]) :: evs,
        .text [])
    else (evs, .attrVal nm attrs an q (c :: av))

/-- Tokenize an HTML string into the event stream fed to the matcher;
trailing text is flushed as a final text event. -/
def tokenize (s : String) : List HtmlEvent :=
  let r := s.data.foldl tokStep ([], TokMode.text [])
  (match r with
   | (evs, .text acc) =>
     if acc.isEmpty then evs else HtmlEvent.text (String.mk acc.reverse) :: evs
   | (evs, _) => evs).reverse

/-- `query_html(html, query, regex)`: with a truthy (non-empty) query, run
the tag matcher over the tokenized body and return its recorded match; else
with a truthy regex, search the raw body; else `None`.  The outer `none`
models an uncaught exception escaping `feed`. -/
def query_html (body query : String) (regex : Option RegexFn) : Option (Option String) :=
  if query ≠ "" then
    match feed (mkMatcher query regex) (tokenize body) with
    | none => none
    | some st => some st.match_
  else
    match regex with
    | some r => some (r body)
    | none => some none

/-- Outcome of one `urllib.request.urlopen` call: a raised transport-layer
error (DNS/connection failure, timeout), or a response with status, reason
and decoded body. -/
inductive FetchResult where
  | transportError
  | response (status : Nat) (reason : String) (body : String)

/-- `request_and_query(url, whole, query, regex)`: a transport error
propagates (outer `none`); a non-200 status is logged and returns `None`;
with `whole` set the body is returned unmodified; otherwise `query_html`
runs. -/
def request_and_query (fetch : FetchResult) (whole : Bool) (query : String)
    (regex : Option RegexFn) : Option (Option String) :=
  match fetch with
  | .transportError => none
  | .response status _reason body =>
    if status ≠ 200 then some none
    else if whole then some (some body)
    else query_html body query regex

/-- The `while interval is not None` loop of `pepperoni`, one entry per
iteration, driven by a finite list of fetch outcomes (the observation
window).  Each iteration records `(result, alerted)` where `alerted` is the
`prev != result` change alert; with `until_change` the loop breaks right
after the first alert.  The outer `none` models an uncaught exception. -/
def poll_loop (whole : Bool) (query : String) (regex : Option RegexFn)
    (until_change : Bool) :
    Option String → List FetchResult → Option (List (Option String × Bool))
  | _, [] => some []
  | prev, f :: fs =>
    match request_and_query f whole query regex with
    | none => none
    | some result =>
      if prev ≠ result then
        if until_change then some [(result, true)]
        else
          match poll_loop whole query regex until_change result fs with
          | none => none
          | some out => some ((result, true) :: out)
      else
        match poll_loop whole query regex until_change result fs with
        | none => none
        | some out => some ((result, false) :: out)

/-- `pepperoni(...)`: the initial fetch, then (only when an interval is
configured) the polling loop.  Returns the initial result and the loop
trace; `none` models an uncaught exception terminating the program. -/
def pepperoni (whole : Bool) (query : String) (regex : Option RegexFn)
    (interval : Option Nat) (until_change : Bool)
    (first : FetchResult) (fetches : List FetchResult) :
    Option (Option String × List (Option String × Bool)) :=
  match request_and_query first whole query regex with
  | none => none
  | some result =>
    match interval with
    | none => some (result, [])
    | some _ =>
      match poll_loop whole query regex until_change result fetches with
      | none => none
      | some out => some (result, out)

/-! ### Observation functions used by the statements -/

/-- Number of start-tag events in a stream. -/
def countStart : List HtmlEvent → Nat
  | [] => 0
  | .starttag _ _ :: evs => countStart evs + 1
  | _ :: evs => countStart evs

/-- Number of end-tag events in a stream. -/
def countEnd : List HtmlEvent → Nat
  | [] => 0
  | .endtag _ :: evs => countEnd evs + 1
  | _ :: evs => countEnd evs

/-- The first text node of an event stream, in document order. -/
def firstText : List HtmlEvent → Option String
  | [] => none
  | .text s :: _ => some s
  | _ :: evs => firstText evs

/-- The next unmatched step exists and accepts the tag:
`cursor < len(steps)` and `steps[cursor](tag, attrs)`. -/
def acceptsNext (st : MatcherState) (tag : String) (attrs : Attrs) : Bool :=
  decide (st.selector_cursor < (st.all_selectors.length : Int)) &&
    (match pyIndex st.all_selectors st.selector_cursor with
     | some fn => fn.matches tag attrs
     | none => false)

/-- Every recorded alert flag equals "this cycle's result differs from the
previous one", chaining results along the trace. -/
def alertsOk : Option String → List (Option String × Bool) → Bool
  | _, [] => true
  | prev, (res, a) :: rest => (a == decide (prev ≠ res)) && alertsOk res rest

/-- No entry before the last one carries an alert. -/
def noAlertButLast : List (Option String × Bool) → Bool
  | [] => true
  | [_] => true
  | p :: q :: rest => !p.2 && noAlertButLast (q :: rest)

/-- The last entry of the trace carries an alert. -/
def lastAlerted : List (Option String × Bool) → Bool
  | [] => false
  | [p] => p.2
  | _ :: q :: rest => lastAlerted (q :: rest)

/-- Model of the compiled pattern `"B|X"`: `re.search` returns the
leftmost character that is `B` or `X` (alternation of one-character
branches), as `group(0)`. -/
def regexBX : RegexFn := fun s =>
  (s.data.find? fun c => decide (c = 'B') || decide (c = 'X')).map fun c => String.mk [c]

/-- The document body used by the doctests of `query_html`. -/
def demoBody : String :=
  "<ul><li>A</li><li id='b'>B</li></ul><ol><li>C</li><li class='d'>D</li></ol>"

/-! ### Helper lemmas -/

lemma handle_starttag_cases (st : MatcherState) (tag : String) (attrs : Attrs)
    (st2 : MatcherState) (h : st.handle_starttag tag attrs = some st2) :
    st2 = { st with stack := some st.selector_cursor :: st.stack
                    selector_cursor := st.selector_cursor + 1 } ∨
    st2 = { st with stack := none :: st.stack } := by
  unfold MatcherState.handle_starttag at h
  split at h
  · split at h
    · cases h
    · split at h
      · left; exact (Option.some.inj h).symm
      · right; exact (Option.some.inj h).symm
  · right; exact (Option.some.inj h).symm

lemma handle_starttag_match (st : MatcherState) (tag : String) (attrs : Attrs)
    (st2 : MatcherState) (h : st.handle_starttag tag attrs = some st2) :
    st2.match_ = st.match_ := by
  rcases handle_starttag_cases st tag attrs st2 h with h2 | h2 <;> subst h2 <;> rfl

lemma handle_starttag_stack_len (st : MatcherState) (tag : String) (attrs : Attrs)
    (st2 : MatcherState) (h : st.handle_starttag tag attrs = some st2) :
    st2.stack.length = st.stack.length + 1 := by
  rcases handle_starttag_cases st tag attrs st2 h with h2 | h2 <;> subst h2 <;> rfl

lemma handle_endtag_cases (st : MatcherState) (tag : String) (st2 : MatcherState)
    (h : st.handle_endtag tag = some st2) :
    ∃ popped rest, st.stack = popped :: rest ∧
      st2 = { st with stack := rest
                      selector_cursor := match popped with
                        | some _ => st.selector_cursor - 1
                        | none => st.selector_cursor } := by
  cases hs : st.stack with
  | nil => unfold MatcherState.handle_endtag at h; rw [hs] at h; cases h
  | cons popped rest =>
    unfold MatcherState.handle_endtag at h
    rw [hs] at h
    cases popped with
    | none => exact ⟨none, rest, rfl, (Option.some.inj h).symm⟩
    | some v => exact ⟨some v, rest, rfl, (Option.some.inj h).symm⟩

lemma handle_endtag_match (st : MatcherState) (tag : String) (st2 : MatcherState)
    (h : st.handle_endtag tag = some st2) : st2.match_ = st.match_ := by
  obtain ⟨popped, rest, _, h2⟩ := handle_endtag_cases st tag st2 h
  subst h2; rfl

lemma handle_endtag_stack_len (st : MatcherState) (tag : String) (st2 : MatcherState)
    (h : st.handle_endtag tag = some st2) : st.stack.length = st2.stack.length + 1 := by
  obtain ⟨popped, rest, hs, h2⟩ := handle_endtag_cases st tag st2 h
  subst h2; rw [hs]; rfl

lemma handle_data_fields (st : MatcherState) (d : String) :
    (st.handle_data d).stack = st.stack ∧
    (st.handle_data d).selector_cursor = st.selector_cursor ∧
    (st.handle_data d).all_selectors = st.all_selectors ∧
    (st.handle_data d).regex = st.regex := by
  unfold MatcherState.handle_data
  repeat' split
  all_goals exact ⟨rfl, rfl, rfl, rfl⟩

lemma handle_data_of_match_some (st : MatcherState) (d : String) (m : String)
    (hm : st.match_ = some m) : st.handle_data d = st := by
  unfold MatcherState.handle_data
  rw [hm]
  simp

lemma handle_event_match_some (st : MatcherState) (e : HtmlEvent) (st2 : MatcherState)
    (m : String) (hm : st.match_ = some m) (h : st.handle_event e = some st2) :
    st2.match_ = some m := by
  cases e with
  | starttag tag attrs => rw [handle_starttag_match st tag attrs st2 h]; exact hm
  | endtag tag => rw [handle_endtag_match st tag st2 h]; exact hm
  | text s =>
    have h2 : some (st.handle_data s) = some st2 := h
    rw [← Option.some.inj h2, handle_data_of_match_some st s m hm]
    exact hm

lemma feed_match_some : ∀ (evs : List HtmlEvent) (st st2 : MatcherState) (m : String),
    st.match_ = some m → feed st evs = some st2 → st2.match_ = some m := by
  intro evs
  induction evs with
  | nil =>
    intro st st2 m hm h
    simp only [feed] at h
    rw [← Option.some.inj h]
    exact hm
  | cons e evs ih =>
    intro st st2 m hm h
    simp only [feed] at h
    cases he : st.handle_event e with
    | none => rw [he] at h; cases h
    | some st1 =>
      rw [he] at h
      exact ih st1 st2 m (handle_event_match_some st e st1 m hm he) h

lemma feed_stack_len : ∀ (evs : List HtmlEvent) (st st2 : MatcherState),
    feed st evs = some st2 →
    st2.stack.length + countEnd evs = st.stack.length + countStart evs := by
  intro evs
  induction evs with
  | nil =>
    intro st st2 h
    simp only [feed] at h
    rw [← Option.some.inj h]
    simp [countStart, countEnd]
  | cons e evs ih =>
    intro st st2 h
    simp only [feed] at h
    cases he : st.handle_event e with
    | none => rw [he] at h; cases h
    | some st1 =>
      rw [he] at h
      have hrec := ih st1 st2 h
      cases e with
      | starttag tag attrs =>
        have hlen := handle_starttag_stack_len st tag attrs st1 he
        simp only [countStart, countEnd]
        omega
      | endtag tag =>
        have hlen := handle_endtag_stack_len st tag st1 he
        simp only [countStart, countEnd]
        omega
      | text s =>
        have h2 : some (st.handle_data s) = some st1 := he
        have hlen : st1.stack.length = st.stack.length := by
          rw [← Option.some.inj h2]
          rw [(handle_data_fields st s).1]
        simp only [countStart, countEnd]
        omega

lemma feed_empty_sel : ∀ (evs : List HtmlEvent) (st st2 : MatcherState),
    st.all_selectors = [] → st.regex = none → st.selector_cursor = 0 →
    (∀ m ∈ st.stack, m = none) →
    feed st evs = some st2 →
    st2.match_ = (match st.match_ with
      | some m => some m
      | none => firstText evs) := by
  intro evs
  induction evs with
  | nil =>
    intro st st2 _ _ _ _ h
    simp only [feed] at h
    rw [← Option.some.inj h]
    cases hm : st.match_ <;> simp [firstText]
  | cons e evs ih =>
    intro st st2 hsel hreg hcur hstk h
    simp only [feed] at h
    cases e with
    | starttag tag attrs =>
      have he : st.handle_event (.starttag tag attrs) =
          some { st with stack := none :: st.stack } := by
        show st.handle_starttag tag attrs = some { st with stack := none :: st.stack }
        unfold MatcherState.handle_starttag
        rw [hsel, hcur]
        norm_num
      rw [he] at h
      have hstk2 : ∀ m ∈ ({ st with stack := none :: st.stack } : MatcherState).stack,
          m = none := by
        intro m hm
        rcases List.mem_cons.mp hm with h1 | h1
        · exact h1
        · exact hstk m h1
      have hres := ih { st with stack := none :: st.stack } st2 hsel hreg hcur hstk2 h
      rw [hres]
      cases st.match_ <;> simp [firstText]
    | endtag tag =>
      cases hs : st.stack with
      | nil =>
        have he : st.handle_event (.endtag tag) = none := by
          show st.handle_endtag tag = none
          unfold MatcherState.handle_endtag
          rw [hs]
        rw [he] at h; cases h
      | cons popped rest =>
        have hp : popped = none := hstk popped (by rw [hs]; exact List.mem_cons_self _ _)
        subst hp
        have he : st.handle_event (.endtag tag) = some { st with stack := rest } := by
          show st.handle_endtag tag = some { st with stack := rest }
          unfold MatcherState.handle_endtag
          rw [hs]
        rw [he] at h
        have hstk2 : ∀ m ∈ ({ st with stack := rest } : MatcherState).stack, m = none := by
          intro m hm
          exact hstk m (by rw [hs]; exact List.mem_cons_of_mem _ hm)
        have hres := ih { st with stack := rest } st2 hsel hreg hcur hstk2 h
        rw [hres]
        cases st.match_ <;> simp [firstText]
    | text s =>
      cases hm : st.match_ with
      | some m =>
        have he : st.handle_event (.text s) = some st := by
          show some (st.handle_data s) = some st
          rw [handle_data_of_match_some st s m hm]
        rw [he] at h
        have hres := ih st st2 hsel hreg hcur hstk h
        rw [hres, hm]
      | none =>
        have he : st.handle_event (.text s) = some { st with match_ := some s } := by
          show some (st.handle_data s) = some { st with match_ := some s }
          unfold MatcherState.handle_data
          rw [hm, hsel, hcur, hreg]
          simp
        rw [he] at h
        have hstk2 : ∀ m ∈ ({ st with match_ := some s } : MatcherState).stack, m = none :=
          hstk
        have hres := ih { st with match_ := some s } st2 hsel hreg hcur hstk2 h
        rw [hres]
        simp [firstText]

lemma startsWith_dot_not_hash (s : String) (h : pyStartsWith s "." = true) :
    pyStartsWith s "#" = false := by
  unfold pyStartsWith at h ⊢
  obtain ⟨cs⟩ := s
  cases cs with
  | nil => simp [List.isPrefixOf] at h
  | cons c cs =>
    simp [List.isPrefixOf] at h ⊢
    rintro rfl
    simp at h

lemma filter_map_foldr (l : List String) :
    (l.filter fun s => decide (s ≠ "")).map get_selector =
    l.foldr (fun t acc => if t = "" then acc else get_selector t :: acc) [] := by
  induction l with
  | nil => rfl
  | cons a l ih =>
    by_cases ha : a = ""
    · subst ha; simpa using ih
    · have hd : (decide (a ≠ "")) = true := by simp [ha]
      rw [List.filter_cons, hd, if_pos rfl, List.map_cons, List.foldr_cons, if_neg ha, ih]

/-! ### The claims -/

/-- Claim C1, evaluated against the code at a failing input: the claim says
an end-tag event arriving when the marker stack is empty is ignored as a
no-op.  The code instead executes `self._stack.pop()` on the empty list,
which raises `IndexError`; the parse aborts and the exception escapes
`query_html`.  Both the single callback and the whole extraction on the
body `"</div>"` evaluate to the exception outcome `none`. -/
theorem endtag_on_empty_stack_raises :
    (mkMatcher "li" none).handle_endtag "div" = none ∧
    query_html "</div>" "li" none = none :=
  ⟨rfl, rfl⟩

/-- Claim C2 counterexample: on the body `"<p>hi</p>"`, whose first text
node is `"hi"`, extraction with the empty selector string and no regex
returns no result (`query_html` treats the empty string as a missing
selector, falls through to the regex branch, and returns `None`), not the
first text node. -/
theorem empty_selector_extractor_counterexample :
    query_html "<p>hi</p>" "" none = some none ∧
    query_html "<p>hi</p>" "" none ≠ some (some "hi") :=
  ⟨rfl, by decide⟩

/-- Claim C2 amended: the Streaming Tag Matcher itself, constructed with
the empty selector string and no regex, does record the first text node of
the event stream in document order whenever the parse completes without
raising; but the extractor entry point `query_html` treats the empty
selector string as absent (Python falsiness), so with no regex it returns
`None` instead. -/
theorem empty_selector_matcher_first_text (evs : List HtmlEvent) (st : MatcherState)
    (h : feed (mkMatcher "" none) evs = some st) :
    st.match_ = firstText evs := by
  have hres := feed_empty_sel evs (mkMatcher "" none) st rfl rfl rfl
    (by intro m hm; cases hm) h
  simpa using hres

/-- Witness for the amended C2 theorem at the tokenized body
`"<p>hi</p>"`. -/
theorem empty_selector_matcher_first_text_witness :
    firstText (tokenize "<p>hi</p>") = some "hi" := by
  have h : feed (mkMatcher "" none) (tokenize "<p>hi</p>") =
      some { all_selectors := [], selector_cursor := 0, stack := [], regex := none,
             match_ := some "hi" } := rfl
  have h2 := empty_selector_matcher_first_text (tokenize "<p>hi</p>") _ h
  rw [← h2]

/-- Claim C3 counterexample: with an interval configured (polling mode) and
a transport-layer failure on the first polled fetch, the whole run
evaluates to the exception outcome `none`: the failure is not caught inside
the loop body, the cycle is not treated as a no-match, and the loop does
not continue to the next iteration (which here would have succeeded). -/
theorem transport_error_polling_counterexample :
    pepperoni false "li" none (some 1) false
      (FetchResult.response 200 "OK" "<li>A</li>")
      [FetchResult.transportError, FetchResult.response 200 "OK" "<li>A</li>"] = none :=
  rfl

/-- Claim C3 amended: a transport-layer failure raised by a fetch is never
caught: it propagates as a terminal error in polling mode (from any loop
state) exactly as in single-shot mode, and the loop does not continue past
it.  Only a non-200 HTTP response is treated as a no-match for the cycle
without raising. -/
theorem transport_error_propagates :
    (∀ (whole : Bool) (query : String) (regex : Option RegexFn) (until_change : Bool)
       (prev : Option String) (fs : List FetchResult),
       poll_loop whole query regex until_change prev (FetchResult.transportError :: fs) = none)
  ∧ (∀ (whole : Bool) (query : String) (regex : Option RegexFn) (n : Nat)
       (until_change : Bool) (first : FetchResult) (fs : List FetchResult),
       pepperoni whole query regex (some n) until_change first
         (FetchResult.transportError :: fs) = none)
  ∧ (∀ (whole : Bool) (query : String) (regex : Option RegexFn) (until_change : Bool)
       (fs : List FetchResult),
       pepperoni whole query regex none until_change FetchResult.transportError fs = none)
  ∧ (∀ (whole : Bool) (query : String) (regex : Option RegexFn) (reason body : String),
       request_and_query (FetchResult.response 404 reason body) whole query regex =
         some none) := by
  refine ⟨?_, ?_, ?_, ?_⟩
  · intro whole query regex until_change prev fs
    simp [poll_loop, request_and_query]
  · intro whole query regex n until_change first fs
    unfold pepperoni
    cases request_and_query first whole query regex with
    | none => rfl
    | some result => simp [poll_loop, request_and_query]
  · intro whole query regex until_change fs
    rfl
  · intro whole query regex reason body
    rfl

/-- Claim C4: for event sequences processed since the last reset without a
pop on an empty stack (the `feed ... = some` hypothesis), the stack length
equals the number of currently open tags (starts minus ends); a start-tag
pushes exactly one marker — a consumed marker (the cursor value) with the
cursor incremented iff the step at the cursor exists and accepts the tag,
else a pass-through `none` marker with the cursor unchanged; an end-tag
pops one marker, decrementing the cursor by exactly one for a consumed
marker and leaving it unchanged for a pass-through marker. -/
theorem matcher_step_invariants :
    (∀ (q : String) (r : Option RegexFn) (evs : List HtmlEvent) (st : MatcherState),
        feed (mkMatcher q r) evs = some st →
        st.stack.length + countEnd evs = countStart evs)
  ∧ (∀ (st : MatcherState) (tag : String) (attrs : Attrs) (st2 : MatcherState),
        st.handle_starttag tag attrs = some st2 →
        (acceptsNext st tag attrs = true →
            st2.stack = some st.selector_cursor :: st.stack ∧
            st2.selector_cursor = st.selector_cursor + 1) ∧
        (acceptsNext st tag attrs = false →
            st2.stack = none :: st.stack ∧
            st2.selector_cursor = st.selector_cursor))
  ∧ (∀ (st : MatcherState) (tag : String) (m : Option Int) (rest : List (Option Int))
        (st2 : MatcherState),
        st.stack = m :: rest → st.handle_endtag tag = some st2 →
        st2.stack = rest ∧
        st2.selector_cursor = (match m with
          | some _ => st.selector_cursor - 1
          | none => st.selector_cursor)) := by
  refine ⟨?_, ?_, ?_⟩
  · intro q r evs st h
    have hlen := feed_stack_len evs (mkMatcher q r) st h
    simpa [mkMatcher] using hlen
  · intro st tag attrs st2 h
    by_cases h1 : st.selector_cursor < (st.all_selectors.length : Int)
    · unfold MatcherState.handle_starttag at h
      rw [if_pos h1] at h
      split at h
      · cases h
      next fn hp =>
        split at h
        next hm =>
          have hacc : acceptsNext st tag attrs = true := by
            simp [acceptsNext, h1, hp, hm]
          rw [← Option.some.inj h]
          constructor
          · intro _
            exact ⟨rfl, rfl⟩
          · intro hf
            rw [hacc] at hf
            cases hf
        next hm =>
          have hm2 : fn.matches tag attrs = false := by
            cases hb : fn.matches tag attrs
            · rfl
            · exact absurd hb hm
          have hacc : acceptsNext st tag attrs = false := by
            simp [acceptsNext, h1, hp, hm2]
          rw [← Option.some.inj h]
          constructor
          · intro ht
            rw [hacc] at ht
            cases ht
          · intro _
            exact ⟨rfl, rfl⟩
    · unfold MatcherState.handle_starttag at h
      rw [if_neg h1] at h
      have hacc : acceptsNext st tag attrs = false := by
        simp [acceptsNext, h1]
      rw [← Option.some.inj h]
      constructor
      · intro ht
        rw [hacc] at ht
        cases ht
      · intro _
        exact ⟨rfl, rfl⟩
  · intro st tag m rest st2 hs h
    obtain ⟨popped2, rest2, hs2, hrec⟩ := handle_endtag_cases st tag st2 h
    rw [hs] at hs2
    injection hs2 with e1 e2
    subst e1
    subst e2
    subst hrec
    exact ⟨rfl, rfl⟩

/-- Witness for C4 at a concrete run: selector `"li"` over the tokenized
body `"<li>x</li>"`. -/
theorem matcher_step_invariants_witness :
    ({ all_selectors := [Step.tagName "li"], selector_cursor := 0, stack := [],
       regex := none, match_ := some "x" } : MatcherState).stack.length
      + countEnd (tokenize "<li>x</li>") = countStart (tokenize "<li>x</li>") :=
  matcher_step_invariants.1 "li" none (tokenize "<li>x</li>") _ rfl

/-- Claim C5: within one parse pass, once `self.match` has been set it is
never modified by any later event of that pass (first-match-wins), and a
text event can change the state only while the match is unset and the
cursor equals the number of selector steps. -/
theorem first_match_wins :
    (∀ (st : MatcherState) (evs : List HtmlEvent) (st2 : MatcherState) (m : String),
        st.match_ = some m → feed st evs = some st2 → st2.match_ = some m)
  ∧ (∀ (st : MatcherState) (d : String),
        st.handle_data d ≠ st →
        st.match_ = none ∧ (st.all_selectors.length : Int) = st.selector_cursor) := by
  constructor
  · intro st evs st2 m hm h
    exact feed_match_some evs st st2 m hm h
  · intro st d hne
    by_cases hc : (st.match_.isNone &&
        decide ((st.all_selectors.length : Int) = st.selector_cursor)) = true
    · rw [Bool.and_eq_true] at hc
      obtain ⟨h1, h2⟩ := hc
      exact ⟨Option.isNone_iff_eq_none.mp h1, of_decide_eq_true h2⟩
    · exfalso
      apply hne
      unfold MatcherState.handle_data
      rw [if_neg hc]

/-- Witness for C5: a matcher whose match is already `"A"` is unchanged by
a further text event `"B"`. -/
theorem first_match_wins_witness :
    ({ all_selectors := [], selector_cursor := 0, stack := [], regex := none,
       match_ := some "A" } : MatcherState).match_ = some "A" :=
  first_match_wins.1
    { all_selectors := [], selector_cursor := 0, stack := [], regex := none,
      match_ := some "A" }
    [HtmlEvent.text "B"]
    { all_selectors := [], selector_cursor := 0, stack := [], regex := none,
      match_ := some "A" }
    "A" rfl rfl

/-- Claim C6: the selector compiler maps each token to one predicate: a
`#`-token matches iff the attribute list has an `id` attribute whose value
equals the remainder exactly; a `.`-token matches iff a `class` attribute's
value, split on single spaces, contains the remainder as one element; any
other token matches iff the tag name equals the token exactly; empty tokens
from consecutive spaces are dropped with the order of the rest preserved. -/
theorem selector_compiler_semantics :
    (∀ (s tag : String) (attrs : Attrs), pyStartsWith s "#" = true →
        ((get_selector s).matches tag attrs = true ↔
          ∃ p ∈ attrs, p.1 = "id" ∧ pyDrop1 s = p.2))
  ∧ (∀ (s tag : String) (attrs : Attrs), pyStartsWith s "." = true →
        ((get_selector s).matches tag attrs = true ↔
          ∃ p ∈ attrs, p.1 = "class" ∧ pyDrop1 s ∈ pySplit p.2 ' '))
  ∧ (∀ (s tag : String) (attrs : Attrs),
        pyStartsWith s "#" = false → pyStartsWith s "." = false →
        ((get_selector s).matches tag attrs = true ↔ s = tag))
  ∧ (∀ (q : String) (r : Option RegexFn),
        (mkMatcher q r).all_selectors =
          (pySplit q ' ').foldr
            (fun t acc => if t = "" then acc else get_selector t :: acc) []) := by
  refine ⟨?_, ?_, ?_, ?_⟩
  · intro s tag attrs h
    rw [get_selector, if_pos h]
    simp [Step.matches, List.any_eq_true]
  · intro s tag attrs h
    have hnh := startsWith_dot_not_hash s h
    rw [get_selector, if_neg (by rw [hnh]; exact Bool.false_ne_true), if_pos h]
    simp [Step.matches, List.any_eq_true]
  · intro s tag attrs h1 h2
    rw [get_selector, if_neg (by rw [h1]; exact Bool.false_ne_true),
      if_neg (by rw [h2]; exact Bool.false_ne_true)]
    simp [Step.matches]
  · intro q r
    exact filter_map_foldr (pySplit q ' ')

/-- Witness for C6: the `#`-token `"#b"` accepts a tag with attribute
`id='b'`. -/
theorem selector_compiler_semantics_witness :
    (get_selector "#b").matches "div" [("id", "b")] = true :=
  (selector_compiler_semantics.1 "#b" "div" [("id", "b")] rfl).mpr
    ⟨("id", "b"), List.mem_singleton.mpr rfl, rfl, rfl⟩

lemma poll_loop_trace : ∀ (fs : List FetchResult) (whole : Bool) (query : String)
    (regex : Option RegexFn) (until_change : Bool) (prev : Option String)
    (out : List (Option String × Bool)),
    poll_loop whole query regex until_change prev fs = some out →
    alertsOk prev out = true ∧
    (until_change = true → noAlertButLast out = true) ∧
    (until_change = true → out.length < fs.length → lastAlerted out = true) ∧
    out.length ≤ fs.length := by
  intro fs
  induction fs with
  | nil =>
    intro whole query regex uc prev out h
    simp only [poll_loop] at h
    rw [← Option.some.inj h]
    exact ⟨rfl, fun _ => rfl, fun _ h2 => absurd h2 (by simp), (by simp)⟩
  | cons f fs ih =>
    intro whole query regex uc prev out h
    simp only [poll_loop] at h
    cases hr : request_and_query f whole query regex with
    | none => rw [hr] at h; cases h
    | some result =>
      rw [hr] at h
      have h2 : (if prev ≠ result then
                   if uc = true then some [(result, true)]
                   else
                     match poll_loop whole query regex uc result fs with
                     | none => (none : Option (List (Option String × Bool)))
                     | some out2 => some ((result, true) :: out2)
                 else
                   match poll_loop whole query regex uc result fs with
                   | none => (none : Option (List (Option String × Bool)))
                   | some out2 => some ((result, false) :: out2)) = some out := h
      clear h
      by_cases hne : prev ≠ result
      · rw [if_pos hne] at h2
        cases uc with
        | true =>
          rw [if_pos rfl] at h2
          rw [← Option.some.inj h2]
          refine ⟨?_, fun _ => rfl, fun _ _ => rfl, ?_⟩
          · simp [alertsOk, hne]
          · simp
        | false =>
          rw [if_neg Bool.false_ne_true] at h2
          cases hp : poll_loop whole query regex false result fs with
          | none => rw [hp] at h2; cases h2
          | some out2 =>
            rw [hp] at h2
            have hrec := ih whole query regex false result out2 hp
            rw [← Option.some.inj h2]
            refine ⟨?_, ?_, ?_, ?_⟩
            · simp [alertsOk, hne, hrec.1]
            · intro huc; cases huc
            · intro huc; cases huc
            · simp only [List.length_cons]
              exact Nat.succ_le_succ hrec.2.2.2
      · rw [if_neg hne] at h2
        have heq : prev = result := not_not.mp hne
        cases hp : poll_loop whole query regex uc result fs with
        | none => rw [hp] at h2; cases h2
        | some out2 =>
          rw [hp] at h2
          have hrec := ih whole query regex uc result out2 hp
          rw [← Option.some.inj h2]
          refine ⟨?_, ?_, ?_, ?_⟩
          · subst heq
            simp [alertsOk, hrec.1]
          · intro huc
            cases out2 with
            | nil => rfl
            | cons q rest =>
              simp only [noAlertButLast, Bool.not_false, Bool.true_and]
              exact hrec.2.1 huc
          · intro huc hlen
            simp only [List.length_cons] at hlen
            have hlen2 : out2.length < fs.length := Nat.lt_of_succ_lt_succ hlen
            cases out2 with
            | nil => cases hrec.2.2.1 huc hlen2
            | cons q rest =>
              simp only [lastAlerted]
              exact hrec.2.2.1 huc hlen2
          · simp only [List.length_cons]
            exact Nat.succ_le_succ hrec.2.2.2

lemma pepperoni_some (whole : Bool) (query : String) (regex : Option RegexFn) (n : Nat)
    (uc : Bool) (first : FetchResult) (fs : List FetchResult) (r0 : Option String)
    (out : List (Option String × Bool))
    (h : pepperoni whole query regex (some n) uc first fs = some (r0, out)) :
    request_and_query first whole query regex = some r0 ∧
    poll_loop whole query regex uc r0 fs = some out := by
  unfold pepperoni at h
  cases hr : request_and_query first whole query regex with
  | none => rw [hr] at h; cases h
  | some result =>
    rw [hr] at h
    have h2 : (match poll_loop whole query regex uc result fs with
               | none => (none : Option (Option String × List (Option String × Bool)))
               | some out2 => some (result, out2)) = some (r0, out) := h
    cases hp : poll_loop whole query regex uc result fs with
    | none => rw [hp] at h2; cases h2
    | some out2 =>
      rw [hp] at h2
      injection h2 with h3
      injection h3 with e1 e2
      subst e1
      subst e2
      exact ⟨rfl, hp⟩

/-- Claim C7: the doctest examples of `query_html` on the body
`<ul><li>A</li><li id='b'>B</li></ul><ol><li>C</li><li class='d'>D</li></ol>`:
selector `"li"` gives `"A"`, `"#b"` gives `"B"`, `"ol li"` gives `"C"`,
`".d"` gives `"D"`, `"ul li"` with regex `"B|X"` gives `"B"`, and
`"ol li"` with regex `"B|X"` gives no result. -/
theorem doctest_examples :
    query_html demoBody "li" none = some (some "A") ∧
    query_html demoBody "#b" none = some (some "B") ∧
    query_html demoBody "ol li" none = some (some "C") ∧
    query_html demoBody ".d" none = some (some "D") ∧
    query_html demoBody "ul li" (some regexBX) = some (some "B") ∧
    query_html demoBody "ol li" (some regexBX) = some none :=
  ⟨rfl, rfl, rfl, rfl, rfl, rfl⟩

/-- Claim C8: on a successful (status-200) fetch the extractor dispatches:
with the whole-body flag the body is returned unmodified, ignoring selector
and regex; else with a (truthy) selector the tag matcher's recorded match
is returned, the regex passed through into the matcher; else with a regex
the first match in the raw body is returned; else no result. -/
theorem extractor_dispatch :
    (∀ (reason body query : String) (regex : Option RegexFn),
        request_and_query (FetchResult.response 200 reason body) true query regex =
          some (some body))
  ∧ (∀ (reason body query : String) (regex : Option RegexFn), query ≠ "" →
        request_and_query (FetchResult.response 200 reason body) false query regex =
          match feed (mkMatcher query regex) (tokenize body) with
          | none => none
          | some st => some st.match_)
  ∧ (∀ (reason body : String) (r : RegexFn),
        request_and_query (FetchResult.response 200 reason body) false "" (some r) =
          some (r body))
  ∧ (∀ (reason body : String),
        request_and_query (FetchResult.response 200 reason body) false "" none =
          some none) := by
  refine ⟨?_, ?_, ?_, ?_⟩
  · intro reason body query regex
    rfl
  · intro reason body query regex hq
    have e1 : request_and_query (FetchResult.response 200 reason body) false query regex =
        query_html body query regex := rfl
    rw [e1]
    unfold query_html
    rw [if_pos hq]
  · intro reason body r
    rfl
  · intro reason body
    rfl

/-- Witness for C8 with the non-empty selector `"li"` on the body
`"<li>A</li>"`. -/
theorem extractor_dispatch_witness :
    request_and_query (FetchResult.response 200 "OK" "<li>A</li>") false "li" none =
      match feed (mkMatcher "li" none) (tokenize "<li>A</li>") with
      | none => none
      | some st => some st.match_ :=
  extractor_dispatch.2.1 "OK" "<li>A</li>" "li" none (by decide)

/-- Claim C9: in the poll loop, each recorded cycle carries a change alert
exactly when its result differs from the immediately preceding one (`None`
being a valid comparable value) and never when they are equal; in
until-change mode no alert occurs before the final recorded cycle, and if
the loop stopped before exhausting its fetches the final cycle did alert
(the loop terminates immediately after the first alert).  The last
conjunct lifts the alert correctness to a full `pepperoni` run, chaining
from the initial fetch's result. -/
theorem poll_loop_change_alerts :
    (∀ (whole : Bool) (query : String) (regex : Option RegexFn) (until_change : Bool)
        (prev : Option String) (fs : List FetchResult) (out : List (Option String × Bool)),
        poll_loop whole query regex until_change prev fs = some out →
        alertsOk prev out = true ∧
        (until_change = true → noAlertButLast out = true) ∧
        (until_change = true → out.length < fs.length → lastAlerted out = true) ∧
        out.length ≤ fs.length)
  ∧ (∀ (whole : Bool) (query : String) (regex : Option RegexFn) (n : Nat)
        (until_change : Bool) (first : FetchResult) (fs : List FetchResult)
        (r0 : Option String) (out : List (Option String × Bool)),
        pepperoni whole query regex (some n) until_change first fs = some (r0, out) →
        alertsOk r0 out = true) := by
  constructor
  · intro whole query regex uc prev fs out h
    exact poll_loop_trace fs whole query regex uc prev out h
  · intro whole query regex n uc first fs r0 out h
    obtain ⟨_, hp⟩ := pepperoni_some whole query regex n uc first fs r0 out h
    exact (poll_loop_trace fs whole query regex uc r0 out hp).1

/-- Witness for C9: a two-cycle polling run whose result changes from
`"A"` to `"B"` and back stays `"B"`, alerting exactly on the change. -/
theorem poll_loop_change_alerts_witness :
    alertsOk (some "A") [(some "B", true), (some "B", false)] = true :=
  (poll_loop_change_alerts.1 false "li" none false (some "A")
      [FetchResult.response 200 "OK" "<li>B</li>",
       FetchResult.response 200 "OK" "<li>B</li>"]
      [(some "B", true), (some "B", false)] rfl).1

/-- Claim C10: `reset()` empties the stack and zeroes the cursor but leaves
the recorded match (and the compiled selectors and regex) unchanged; hence
a matcher reused via reset after a pass that recorded a result still
reports that result as long as no later event records anew (and no later
text can, by first-match-wins). -/
theorem reset_frame_effect :
    ∀ (st : MatcherState),
      st.reset.stack = [] ∧ st.reset.selector_cursor = 0 ∧
      st.reset.match_ = st.match_ ∧ st.reset.all_selectors = st.all_selectors ∧
      st.reset.regex = st.regex ∧
      (∀ (evs : List HtmlEvent) (st2 : MatcherState) (m : String),
        st.match_ = some m → feed st.reset evs = some st2 → st2.match_ = some m) := by
  intro st
  refine ⟨rfl, rfl, rfl, rfl, rfl, ?_⟩
  intro evs st2 m hm h
  exact feed_match_some evs st.reset st2 m hm h

/-- Witness for C10: a matcher that recorded `"R"` is reset and fed a new
text event; it still reports `"R"`. -/
theorem reset_frame_effect_witness :
    ({ all_selectors := [Step.tagName "li"], selector_cursor := 0, stack := [],
       regex := none, match_ := some "R" } : MatcherState).match_ = some "R" :=
  (reset_frame_effect
      { all_selectors := [Step.tagName "li"], selector_cursor := 1, stack := [some 0],
        regex := none, match_ := some "R" }).2.2.2.2.2
    [HtmlEvent.text "Z"]
    { all_selectors := [Step.tagName "li"], selector_cursor := 0, stack := [],
      regex := none, match_ := some "R" }
    "R" rfl rfl
